import Mathlib

/-!
Verification of the `rusty-remote-runner` execution & retention subsystem.

The definitions below are a shallow embedding of the Rust sources:
* `rusty-runner-server/src/cleanup.rs` — the retention sweeper (`cleanup_endpoint`,
  `dir_size`);
* `rusty-runner-server/src/process.rs` — the process runner (`process_command`);
* `rusty-runner-server/src/routes.rs` — the script dispatcher (`run_script`);
* `src/api.rs` — the shared response schema (`RunStatus`, `RunResponse`).

Timestamps (`SystemTime`) and durations are modelled as `Nat` (seconds since the Unix
epoch); `now.duration_since(modified).unwrap_or(Duration::ZERO)` is exactly truncated
`Nat` subtraction.  Byte strings are `List Nat`.  Fallible OS calls are modelled by
`Except`/`Bool` outcome parameters supplied by the environment.
-/

namespace RustyRunner

/-! ## Workspace entries (`cleanup.rs` data model)

A top-level workspace entry as observed by `cleanup_endpoint`: its file type
(`entry.file_type()`), its modification timestamp (`entry.metadata().modified()`,
which may be unavailable), and the recursive content size that `dir_size` would
report for a file or directory (for a file, `metadata.len()`; for a directory, the
recursive sum with unreadable children contributing zero). -/

inductive FileKind where
  | file
  | dir
  | other
deriving DecidableEq, Repr

structure Entry where
  name : String
  kind : FileKind
  /-- `metadata.modified()`: `none` models an unavailable timestamp, which the code
  replaces by `SystemTime::UNIX_EPOCH`. -/
  modified : Option Nat
  /-- The recursive content size of a file or directory. -/
  contentSize : Nat
deriving DecidableEq, Repr

/-- `entry.metadata().modified().unwrap_or(SystemTime::UNIX_EPOCH)`. -/
def modTime (e : Entry) : Nat := e.modified.getD 0

/-- `dir_size(entry.path())`: a file reports its length, a directory its recursive
sum, and an entry that is neither file nor directory reports zero (`cleanup.rs`
lines 131-134). -/
def dir_size (e : Entry) : Nat :=
  if e.kind = FileKind.other then 0 else e.contentSize

/-- Deletion in both phases acts only on directories (`remove_dir_all`) and plain
files (`remove_file`); any other file type falls through both `if` arms. -/
def is_dir_or_file (e : Entry) : Bool :=
  e.kind = FileKind.dir ∨ e.kind = FileKind.file

/-- The age-phase trigger: `now.duration_since(modified).unwrap_or(ZERO) > max_age`
(`cleanup.rs` line 47).  Truncated `Nat` subtraction models `unwrap_or(ZERO)`. -/
def ageExceeded (now maxAge : Nat) (e : Entry) : Bool :=
  maxAge < now - modTime e

/-! ## Phase A — age eviction (`cleanup.rs` lines 38-59) -/

/-- Whether phase A deletes this entry: it is older than `max_age` and is a
directory or plain file. -/
def ageDeletes (now maxAge : Nat) (e : Entry) : Bool :=
  ageExceeded now maxAge e && is_dir_or_file e

/-- One pass over the top-level entries: an entry older than `max_age` is deleted if
it is a directory or a plain file; every other entry remains.  Returns
`(remaining, deleted)` in visit order. -/
def ageSweep (now maxAge : Nat) : List Entry → List Entry × List Entry
  | [] => ([], [])
  | e :: es =>
    let r := ageSweep now maxAge es
    if ageDeletes now maxAge e = true then
      (r.1, e :: r.2)
    else
      (e :: r.1, r.2)

/-! ## Phase B — size eviction (`cleanup.rs` lines 62-99) -/

/-- Result of the size phase: entries kept, entries deleted, and the entries whose
recursive size was actually computed (the `dir_size` calls paid), each in visit
order. -/
structure SizePhase where
  kept : List Entry
  deleted : List Entry
  sized : List Entry
deriving DecidableEq, Repr

/-- The `for (entry, _ts) in entries` loop of `cleanup_endpoint` (lines 78-99),
carrying the running `total_size_seen`:
* while `total_size_seen <= max_size`, the entry's recursive size is computed and
  added;
* if afterwards `total_size_seen > max_size` (whether from this entry or earlier),
  the entry is deleted when it is a directory or plain file. -/
def sizeSweepGo (maxSize : Nat) : Nat → List Entry → SizePhase
  | _, [] => ⟨[], [], []⟩
  | total, e :: es =>
    let total' := if total ≤ maxSize then total + dir_size e else total
    let r := sizeSweepGo maxSize total' es
    let sized' := if total ≤ maxSize then e :: r.sized else r.sized
    if maxSize < total' ∧ is_dir_or_file e = true then
      ⟨r.kept, e :: r.deleted, sized'⟩
    else
      ⟨e :: r.kept, r.deleted, sized'⟩

/-- The running `total_size_seen` after scanning a list of entries, starting from a
given total (mirrors the accumulation of `sizeSweepGo`). -/
def seenSize (maxSize : Nat) : Nat → List Entry → Nat
  | total, [] => total
  | total, e :: es =>
    seenSize maxSize (if total ≤ maxSize then total + dir_size e else total) es

/-- Total of the recursive sizes of a list of entries. -/
def sumSizes (l : List Entry) : Nat := (l.map dir_size).sum

/-- The sort order used by the size phase: `a` comes before `b` when `a` was
modified no earlier than `b` (newest first). -/
def newerRel (a b : Entry) : Prop := modTime b ≤ modTime a

instance : DecidableRel newerRel :=
  fun a b => show Decidable (modTime b ≤ modTime a) from inferInstance

instance : IsTotal Entry newerRel :=
  ⟨fun a b => Nat.le_total (modTime b) (modTime a)⟩

instance : IsTrans Entry newerRel :=
  ⟨fun _ _ _ hab hbc => Nat.le_trans hbc hab⟩

/-- `entries.sort_by_key(|(_, modified)| std::cmp::Reverse(*modified))`: a stable
sort, newest first.  `List.insertionSort` with this relation is stable in the same
sense. -/
def sortNewestFirst (entries : List Entry) : List Entry :=
  List.insertionSort newerRel entries

/-- The whole size phase: collect entries, sort newest first, then scan with a
running total starting at `0`. -/
def sizeSweep (maxSize : Nat) (entries : List Entry) : SizePhase :=
  sizeSweepGo maxSize 0 (sortNewestFirst entries)

/-! ## The full sweep (`cleanup_endpoint`, error-free run) -/

structure SweepResult where
  remaining : List Entry
  deleted : List Entry
deriving DecidableEq, Repr

/-- One sweep of `cleanup_endpoint` in which every OS call succeeds: phase A (if
`max_age` is set) followed by phase B (if `max_size` is set) on whatever remains. -/
def cleanup_endpoint (maxAge maxSize : Option Nat) (now : Nat) (entries : List Entry) :
    SweepResult :=
  let a :=
    match maxAge with
    | none => (entries, ([] : List Entry))
    | some m => ageSweep now m entries
  match maxSize with
  | none => ⟨a.1, a.2⟩
  | some s =>
    let b := sizeSweep s a.1
    ⟨b.kept, a.2 ++ b.deleted⟩

/-! ## Spec-side characterization of the size phase

For the refinement claim about which entries the size phase deletes, the following
definition follows the words of the specification: scan the (already sorted)
entries newest first, accumulate every scanned entry's recursive size into a
running total, and delete exactly those entries at which the running total exceeds
the limit. -/

def specSizeDeleted (maxSize : Nat) : Nat → List Entry → List Entry
  | _, [] => []
  | total, e :: es =>
    let total' := total + dir_size e
    if maxSize < total' then e :: specSizeDeleted maxSize total' es
    else specSizeDeleted maxSize total' es

/-! ## Phase A with fallible OS calls (`cleanup.rs` lines 38-59, error paths)

`cleanup_endpoint` propagates every failing OS call with `?`: `entry.metadata()`,
`entry.file_type()`, `remove_dir_all` and `remove_file` all abort the function on
error (the caller `start_cleanup_task` merely logs the returned error).  Each
top-level entry therefore carries the outcome of the three fallible calls made on
it. -/

structure EntryE where
  entry : Entry
  /-- whether `entry.metadata()` succeeds -/
  metadataOk : Bool
  /-- whether `entry.file_type()` succeeds -/
  fileTypeOk : Bool
  /-- whether `remove_dir_all` / `remove_file` on this entry succeeds -/
  removeOk : Bool
deriving DecidableEq, Repr

/-- Outcome of the age phase with fallible calls: entries kept, entries deleted,
entries not reached because the phase aborted, and whether the phase returned
`Ok`. -/
structure AgeSweepE where
  kept : List EntryE
  deleted : List EntryE
  unvisited : List EntryE
  ok : Bool
deriving DecidableEq, Repr

/-- The `while let Some(entry) = rd.next_entry().await?` loop of phase A with each
`?` modelled: the first failing call stops the loop, leaving the current entry
undeleted and all later entries unvisited. -/
def ageSweepE (now maxAge : Nat) : List EntryE → AgeSweepE
  | [] => ⟨[], [], [], true⟩
  | e :: es =>
    if e.metadataOk = false then ⟨[], [], e :: es, false⟩
    else if ageExceeded now maxAge e.entry = true then
      if e.fileTypeOk = false then ⟨[], [], e :: es, false⟩
      else if is_dir_or_file e.entry = true then
        if e.removeOk = false then ⟨[], [], e :: es, false⟩
        else
          let r := ageSweepE now maxAge es
          ⟨r.kept, e :: r.deleted, r.unvisited, r.ok⟩
      else
        let r := ageSweepE now maxAge es
        ⟨e :: r.kept, r.deleted, r.unvisited, r.ok⟩
    else
      let r := ageSweepE now maxAge es
      ⟨e :: r.kept, r.deleted, r.unvisited, r.ok⟩

/-- Whether processing this entry hits a failing OS call (exactly the calls the
loop body performs on it). -/
def opFails (now maxAge : Nat) (e : EntryE) : Bool :=
  !e.metadataOk
    || (ageExceeded now maxAge e.entry
        && (!e.fileTypeOk || (is_dir_or_file e.entry && !e.removeOk)))

/-! ## The process runner (`process.rs`) and the response schema (`api.rs`) -/

/-- An OS error from launching a process (`std::io::Error`); `message` is its
`to_string()` rendering. -/
structure IoError where
  message : String
deriving DecidableEq, Repr

/-- `std::process::Output` as consumed by the runner: `code` is
`status.code()` (`none` when the OS reports termination without a code, e.g. by
signal), plus the raw captured byte streams. -/
structure Output where
  code : Option Int
  stdout : List Nat
  stderr : List Nat
deriving DecidableEq, Repr

/-- `RunStatus` as declared in `src/api.rs` (lines 177-196): separate optional
`stdout` and `stderr` fields. -/
inductive RunStatus where
  | completed (exit_code : Int) (time_taken : Nat)
      (stdout : Option (List Nat)) (stderr : Option (List Nat))
  | failure (reason : String)
deriving DecidableEq, Repr

structure RunResponse where
  id : Nat
  status : RunStatus
deriving DecidableEq, Repr

def RunStatus.stdoutField : RunStatus → Option (List Nat)
  | .completed _ _ so _ => so
  | .failure _ => none

def RunStatus.stderrField : RunStatus → Option (List Nat)
  | .completed _ _ _ se => se
  | .failure _ => none

/-- The response shape constructed by `process_command` in
`rusty-runner-server/src/process.rs` (a revision predating the split
`stdout`/`stderr` fields of `api.rs`: a single `return_logs` flag guards a combined
`std_out_and_err` pair). -/
inductive RunStatusLogs where
  | completed (exit_code : Int) (time_taken : Nat)
      (std_out_and_err : Option (List Nat × List Nat))
  | failure (reason : String)
deriving DecidableEq, Repr

structure RunResponseLogs where
  id : Nat
  status : RunStatusLogs
deriving DecidableEq, Repr

/-- `process_command` from `rusty-runner-server/src/process.rs`: `result` is the
outcome of `command.output().await`, `time_taken` the measured wall time.  On `Ok`
it builds `Completed` with `status.code().unwrap_or(-1001)`; on `Err(e)` it builds
`Failure` with `e.to_string()`.  The function is total: it never surfaces the
error any other way. -/
def process_command (cmd_id : Nat) (result : Except IoError Output) (return_logs : Bool)
    (time_taken : Nat) : RunResponseLogs :=
  match result with
  | .ok out =>
    ⟨cmd_id,
      .completed (out.code.getD (-1001)) time_taken
        (if return_logs then some (out.stdout, out.stderr) else none)⟩
  | .error e => ⟨cmd_id, .failure e.message⟩

/-- Modelled from the spec: the runner `process` that `routes.rs` calls as
`process(id, command, request.return_stdout, request.return_stderr)` is absent from
this source snapshot — `process.rs` holds the earlier `process_command` revision
whose response shape matches neither that call nor the `RunStatus` of `api.rs`.
Per spec §4.1 and the `RunStatus` declaration: on a successful launch and exit it
returns `Completed` with the exit code (or the `-1001` sentinel), the elapsed wall
time, and each stream captured exactly when its flag is set; on a launch failure it
returns `Failure` with the rendered OS error. -/
def process (id : Nat) (result : Except IoError Output)
    (return_stdout return_stderr : Bool) (time_taken : Nat) : RunResponse :=
  match result with
  | .ok out =>
    ⟨id,
      .completed (out.code.getD (-1001)) time_taken
        (if return_stdout then some out.stdout else none)
        (if return_stderr then some out.stderr else none)⟩
  | .error e => ⟨id, .failure e.message⟩

/-! ## The script dispatcher (`routes.rs`, `run_script`) -/

/-- `ScriptInterpreter` from `src/api.rs`. -/
inductive ScriptInterpreter where
  | bash
  | cmd
  | powershell
deriving DecidableEq, Repr

/-- `ScriptInterpreter::as_extension`. -/
def ScriptInterpreter.as_extension : ScriptInterpreter → String
  | .bash => "sh"
  | .cmd => "bat"
  | .powershell => "ps1"

/-- The deployment configuration of `routes.rs`: optional paths to the bash and
powershell binaries. -/
structure Config where
  bash_path : Option String
  powershell_path : Option String
deriving DecidableEq, Repr

/-- The `RunScriptQuery` of `src/api.rs`. -/
structure RunScriptQuery where
  interpreter : ScriptInterpreter
  return_stdout : Bool
  return_stderr : Bool
deriving DecidableEq, Repr

/-- A fully configured process launch: program, arguments, working directory
(`tokio::process::Command` as assembled by `run_script`). -/
structure CommandSpec where
  program : String
  args : List String
  current_dir : String
deriving DecidableEq, Repr

/-- Environment outcomes consumed by one `run_script` call: the platform
(`cfg!(windows)`), whether `tokio::fs::write` succeeds, and — if a process is
spawned — the outcome and wall time of `command.output()`. -/
structure ScriptEnv where
  isWindows : Bool
  writeOk : Bool
  runResult : Except IoError Output
  elapsed : Nat

/-- Observable trace of one `run_script` call: the successful filesystem writes
performed (path and contents), the spawned command if any, the HTTP status, and
the response body. -/
structure ScriptTrace where
  written : List (String × String)
  spawned : Option CommandSpec
  httpStatus : Nat
  response : RunResponse

/-- `process::working_directory()`: `std::env::temp_dir()` joined with
`"rusty-runner"`. -/
def working_directory (tempDir : String) : String := tempDir ++ "/rusty-runner"

/-- The script path computed by `run_script`:
`working_directory()/script_<id>.<extension>`. -/
def script_path (tempDir : String) (id : Nat) (i : ScriptInterpreter) : String :=
  working_directory tempDir ++ "/script_" ++ toString id ++ "." ++ i.as_extension

/-- `run_script` from `routes.rs` (lines 71-144): write the body verbatim to the
script path (on failure: 500 and `Failure("Failed to write script data")`, no
spawn); resolve the interpreter (unconfigured bash/powershell: 400 and
`Failure("<Interpreter> not supported")`; `Cmd` off Windows: 400 and
`Failure("Cmd not supported on unix")`; each without a spawn); otherwise spawn the
assembled command in the working directory and delegate to `process`. -/
def run_script (tempDir : String) (config : Config) (query : RunScriptQuery)
    (script : String) (id : Nat) (env : ScriptEnv) : ScriptTrace :=
  let path := script_path tempDir id query.interpreter
  if env.writeOk = false then
    ⟨[], none, 500, ⟨id, .failure "Failed to write script data"⟩⟩
  else
    let written := [(path, script)]
    match query.interpreter with
    | .bash =>
      match config.bash_path with
      | none => ⟨written, none, 400, ⟨id, .failure "Bash not supported"⟩⟩
      | some bash =>
        ⟨written, some ⟨bash, ["--", path], working_directory tempDir⟩, 200,
          process id env.runResult query.return_stdout query.return_stderr env.elapsed⟩
    | .powershell =>
      match config.powershell_path with
      | none => ⟨written, none, 400, ⟨id, .failure "Powershell not supported"⟩⟩
      | some ps =>
        ⟨written, some ⟨ps, ["-File", path], working_directory tempDir⟩, 200,
          process id env.runResult query.return_stdout query.return_stderr env.elapsed⟩
    | .cmd =>
      if env.isWindows = false then
        ⟨written, none, 400, ⟨id, .failure "Cmd not supported on unix"⟩⟩
      else
        ⟨written, some ⟨path, [], working_directory tempDir⟩, 200,
          process id env.runResult query.return_stdout query.return_stderr env.elapsed⟩

/-! ## Concrete entries used in witnesses and counterexamples

`exA`, `exB`, `exC` are the specification's worked retention example: A oldest with
10 bytes, B with 5 bytes, C newest with 3 bytes. -/

def exA : Entry := ⟨"A", FileKind.dir, some 10, 10⟩
def exB : Entry := ⟨"B", FileKind.dir, some 20, 5⟩
def exC : Entry := ⟨"C", FileKind.dir, some 30, 3⟩

/-- A top-level entry that is neither a regular file nor a directory (for example a
broken symlink), old and large. -/
def exOther : Entry := ⟨"dangling", FileKind.other, some 0, 50⟩

/-- An old removable entry whose `remove_file` call fails. -/
def exFailDelete : EntryE := ⟨⟨"old1", FileKind.file, some 0, 1⟩, true, true, false⟩

/-- An old removable entry on which every OS call would succeed. -/
def exOldNext : EntryE := ⟨⟨"old2", FileKind.file, some 0, 1⟩, true, true, true⟩

/-! # Helper lemmas -/

theorem is_dir_or_file_eq_false_iff (e : Entry) :
    is_dir_or_file e = false ↔ e.kind = FileKind.other := by
  cases h : e.kind <;> simp [is_dir_or_file, h]

theorem dir_size_eq_zero_of_not_removable {e : Entry} (h : is_dir_or_file e = false) :
    dir_size e = 0 := by
  rw [dir_size, if_pos ((is_dir_or_file_eq_false_iff e).mp h)]

theorem ageSweep_eq_filter (now maxAge : Nat) (l : List Entry) :
    ageSweep now maxAge l
      = (l.filter (fun e => !ageDeletes now maxAge e),
         l.filter (fun e => ageDeletes now maxAge e)) := by
  induction l with
  | nil => rfl
  | cons e es ih =>
    cases h : ageDeletes now maxAge e <;>
      simp [ageSweep, ih, List.filter_cons, h]

theorem sizeSweepGo_over {maxSize total : Nat} (h : maxSize < total) (l : List Entry) :
    sizeSweepGo maxSize total l
      = ⟨l.filter (fun e => !is_dir_or_file e), l.filter (fun e => is_dir_or_file e), []⟩ := by
  induction l with
  | nil => rfl
  | cons e es ih =>
    have hle : ¬ total ≤ maxSize := Nat.not_le.mpr h
    cases hf : is_dir_or_file e <;>
      simp [sizeSweepGo, if_neg hle, h, ih, List.filter_cons, hf]

theorem seenSize_over {maxSize total : Nat} (h : maxSize < total) (l : List Entry) :
    seenSize maxSize total l = total := by
  induction l with
  | nil => rfl
  | cons e es ih => rw [seenSize, if_neg (Nat.not_le.mpr h)]; exact ih

theorem sizeSweepGo_append (maxSize : Nat) (pre suf : List Entry) :
    ∀ total : Nat,
      sizeSweepGo maxSize total (pre ++ suf)
        = ⟨(sizeSweepGo maxSize total pre).kept
              ++ (sizeSweepGo maxSize (seenSize maxSize total pre) suf).kept,
           (sizeSweepGo maxSize total pre).deleted
              ++ (sizeSweepGo maxSize (seenSize maxSize total pre) suf).deleted,
           (sizeSweepGo maxSize total pre).sized
              ++ (sizeSweepGo maxSize (seenSize maxSize total pre) suf).sized⟩ := by
  induction pre with
  | nil => intro total; simp [sizeSweepGo, seenSize]
  | cons e es ih =>
    intro total
    by_cases ht : total ≤ maxSize
    · by_cases hov : maxSize < total + dir_size e <;>
        by_cases hf : is_dir_or_file e = true <;>
          simp [sizeSweepGo, seenSize, ih, ht, hov, hf]
    · have hov : maxSize < total := Nat.not_le.mp ht
      by_cases hf : is_dir_or_file e = true <;>
        simp [sizeSweepGo, seenSize, ih, ht, hov, hf]

theorem sizeSweepGo_kept_sublist (maxSize : Nat) (l : List Entry) :
    ∀ total : Nat, (sizeSweepGo maxSize total l).kept.Sublist l := by
  induction l with
  | nil => intro _; simp [sizeSweepGo]
  | cons e es ih =>
    intro total
    by_cases hc : maxSize < (if total ≤ maxSize then total + dir_size e else total)
        ∧ is_dir_or_file e = true
    · simpa [sizeSweepGo, hc] using List.Sublist.cons e (ih _)
    · simpa [sizeSweepGo, hc] using List.Sublist.cons₂ e (ih _)

theorem sizeSweepGo_deleted_dir_or_file (maxSize : Nat) (l : List Entry) :
    ∀ total : Nat, ∀ x ∈ (sizeSweepGo maxSize total l).deleted,
      is_dir_or_file x = true := by
  induction l with
  | nil => intro _ x hx; simp [sizeSweepGo] at hx
  | cons e es ih =>
    intro total x hx
    by_cases hc : maxSize < (if total ≤ maxSize then total + dir_size e else total)
        ∧ is_dir_or_file e = true
    · simp [sizeSweepGo, hc] at hx
      rcases hx with hx | hx
      · exact hx ▸ hc.2
      · exact ih _ x hx
    · simp [sizeSweepGo, hc] at hx
      exact ih _ x hx

theorem sumSizes_filter_not_removable (l : List Entry) :
    sumSizes (l.filter (fun e => !is_dir_or_file e)) = 0 := by
  induction l with
  | nil => rfl
  | cons e es ih =>
    cases hf : is_dir_or_file e with
    | false =>
      rw [List.filter_cons_of_pos (by rw [hf]; rfl), sumSizes, List.map_cons, List.sum_cons,
        dir_size_eq_zero_of_not_removable hf, Nat.zero_add]
      exact ih
    | true =>
      rw [List.filter_cons_of_neg (by rw [hf]; exact Bool.false_ne_true)]
      exact ih

theorem sizeSweepGo_kept_sum (maxSize : Nat) (l : List Entry) :
    ∀ total : Nat, total ≤ maxSize →
      total + sumSizes (sizeSweepGo maxSize total l).kept ≤ maxSize := by
  induction l with
  | nil => intro total ht; simpa [sizeSweepGo, sumSizes] using ht
  | cons e es ih =>
    intro total ht
    rw [sizeSweepGo]
    simp only [if_pos ht]
    by_cases hover : maxSize < total + dir_size e
    · have hf : is_dir_or_file e = true := by
        by_contra hfx
        have hf0 : is_dir_or_file e = false := by
          revert hfx; cases is_dir_or_file e <;> simp
        rw [dir_size_eq_zero_of_not_removable hf0, Nat.add_zero] at hover
        exact absurd ht (Nat.not_le.mpr hover)
      rw [if_pos ⟨hover, hf⟩, sizeSweepGo_over hover es]
      simpa [sumSizes_filter_not_removable] using ht
    · have hle : total + dir_size e ≤ maxSize := Nat.not_lt.mp hover
      rw [if_neg (fun hh => hover hh.1)]
      have hih := ih (total + dir_size e) hle
      simp only [sumSizes, List.map_cons, List.sum_cons] at hih ⊢
      omega

theorem sizeSweepGo_all_kept (maxSize : Nat) (l : List Entry) :
    ∀ total : Nat, total + sumSizes l ≤ maxSize →
      sizeSweepGo maxSize total l = ⟨l, [], l⟩ := by
  induction l with
  | nil => intro _ _; rfl
  | cons e es ih =>
    intro total hsum
    have hcons : total + dir_size e + sumSizes es ≤ maxSize := by
      simp only [sumSizes, List.map_cons, List.sum_cons] at hsum ⊢
      omega
    have ht : total ≤ maxSize := by omega
    have hle : total + dir_size e ≤ maxSize := by omega
    rw [sizeSweepGo]
    simp only [if_pos ht]
    rw [if_neg (fun hh => Nat.not_le.mpr hh.1 hle), ih (total + dir_size e) hcons]

theorem sortNewestFirst_sorted (l : List Entry) :
    List.Sorted newerRel (sortNewestFirst l) :=
  List.sorted_insertionSort newerRel l

theorem sortNewestFirst_of_sorted {l : List Entry} (h : List.Sorted newerRel l) :
    sortNewestFirst l = l :=
  List.Sorted.insertionSort_eq h

theorem mem_sortNewestFirst {l : List Entry} {e : Entry} :
    e ∈ sortNewestFirst l ↔ e ∈ l :=
  List.mem_insertionSort newerRel

theorem specSizeDeleted_over {maxSize total : Nat} (h : maxSize < total) (l : List Entry) :
    specSizeDeleted maxSize total l = l := by
  induction l generalizing total with
  | nil => rfl
  | cons e es ih =>
    have h' : maxSize < total + dir_size e := Nat.lt_of_lt_of_le h (Nat.le_add_right _ _)
    simp [specSizeDeleted, h', ih h']

theorem sizeSweepGo_deleted_eq_spec (maxSize : Nat) (l : List Entry) :
    ∀ total : Nat, (∀ e ∈ l, is_dir_or_file e = true) →
      (sizeSweepGo maxSize total l).deleted = specSizeDeleted maxSize total l := by
  induction l with
  | nil => intro _ _; rfl
  | cons e es ih =>
    intro total h
    have hf : is_dir_or_file e = true := h e (List.mem_cons_self e es)
    have hes : ∀ x ∈ es, is_dir_or_file x = true := fun x hx => h x (List.mem_cons_of_mem e hx)
    by_cases ht : total ≤ maxSize
    · by_cases hov : maxSize < total + dir_size e <;>
        simp [sizeSweepGo, specSizeDeleted, ht, hov, hf, ih _ hes]
    · have hov : maxSize < total := Nat.not_le.mp ht
      have hov' : maxSize < total + dir_size e := Nat.lt_of_lt_of_le hov (Nat.le_add_right _ _)
      rw [sizeSweepGo_over hov, specSizeDeleted_over hov]
      simp [List.filter_cons, hf, List.filter_eq_self.mpr hes]

/-! # Claim theorems -/

/-- **C1** (confirmed, for workspace entries in the data model sense, i.e. files and
directories): with `max_total_size` set, the size phase lists the top-level entries,
sorts them newest first by modified time, scans them accumulating each entry's
recursive size into a running total, and deletes exactly those entries at which the
running total exceeds `max_total_size` — including the entry whose addition first
crossed the limit.  `specSizeDeleted` is the claim-side characterization (a scan
that accumulates every entry's size); the code-side sweep produces exactly that
deletion list. -/
theorem sizeSweep_deleted_eq_running_total_spec (maxSize : Nat) (entries : List Entry)
    (h : ∀ e ∈ entries, is_dir_or_file e = true) :
    (sizeSweep maxSize entries).deleted
      = specSizeDeleted maxSize 0 (sortNewestFirst entries) := by
  rw [sizeSweep]
  exact sizeSweepGo_deleted_eq_spec maxSize _ 0 (fun e he => h e (mem_sortNewestFirst.mp he))

/-- Witness for C1, at the specification's worked example: A oldest with 10 bytes,
B with 5 bytes, C newest with 3 bytes, `max_total_size = 6`; the sweep deletes B
and A and retains only C. -/
theorem sizeSweep_deleted_eq_running_total_spec_witness :
    (∀ e ∈ [exA, exB, exC], is_dir_or_file e = true)
    ∧ (sizeSweep 6 [exA, exB, exC]).deleted
        = specSizeDeleted 6 0 (sortNewestFirst [exA, exB, exC])
    ∧ (sizeSweep 6 [exA, exB, exC]).deleted = [exB, exA]
    ∧ (sizeSweep 6 [exA, exB, exC]).kept = [exC] :=
  ⟨by decide,
    sizeSweep_deleted_eq_running_total_spec 6 [exA, exB, exC] (by decide),
    by decide, by decide⟩

/-- **C2** (confirmed): once the running total has exceeded `max_total_size` —
here, after a newest-first prefix `pre` whose scan already drove `total_size_seen`
over the limit — every remaining older entry (`suf`) is deleted (when it is a file
or directory) while contributing nothing to the list of entries whose recursive
size is computed: the expensive `dir_size` walk is paid only while the running
total is still at or under the budget. -/
theorem sizeSweep_short_circuit (maxSize : Nat) (entries pre suf : List Entry)
    (hsplit : sortNewestFirst entries = pre ++ suf)
    (hover : maxSize < seenSize maxSize 0 pre) :
    (sizeSweep maxSize entries).deleted
        = (sizeSweepGo maxSize 0 pre).deleted ++ suf.filter (fun e => is_dir_or_file e)
    ∧ (sizeSweep maxSize entries).sized = (sizeSweepGo maxSize 0 pre).sized := by
  rw [sizeSweep, hsplit, sizeSweepGo_append maxSize pre suf 0, sizeSweepGo_over hover suf]
  constructor <;> simp

/-- Witness for C2: in the worked example the crossing happens after scanning C and
B; the older entry A is deleted and its size is never computed (`sized` stays
`[C, B]`). -/
theorem sizeSweep_short_circuit_witness :
    sortNewestFirst [exA, exB, exC] = [exC, exB] ++ [exA]
    ∧ 6 < seenSize 6 0 [exC, exB]
    ∧ (sizeSweep 6 [exA, exB, exC]).deleted
        = (sizeSweepGo 6 0 [exC, exB]).deleted ++ [exA].filter (fun e => is_dir_or_file e)
    ∧ (sizeSweep 6 [exA, exB, exC]).sized = (sizeSweepGo 6 0 [exC, exB]).sized
    ∧ (sizeSweep 6 [exA, exB, exC]).sized = [exC, exB] :=
  ⟨by decide, by decide,
    (sizeSweep_short_circuit 6 [exA, exB, exC] [exC, exB] [exA] (by decide) (by decide)).1,
    (sizeSweep_short_circuit 6 [exA, exB, exC] [exC, exB] [exA] (by decide) (by decide)).2,
    by decide⟩

/-- **C9** (confirmed, for workspace entries in the data model sense, i.e. files and
directories): with `max_age` set, the age phase deletes every top-level entry whose
age `now - modified_time` exceeds `max_age` and retains every entry whose age does
not. -/
theorem ageSweep_age_eviction (now maxAge : Nat) (entries : List Entry) (e : Entry)
    (he : e ∈ entries) (hkind : is_dir_or_file e = true) :
    (e ∈ (ageSweep now maxAge entries).2 ↔ maxAge < now - modTime e)
    ∧ (e ∈ (ageSweep now maxAge entries).1 ↔ ¬ maxAge < now - modTime e) := by
  rw [ageSweep_eq_filter]
  constructor <;>
    simp [List.mem_filter, ageDeletes, ageExceeded, hkind, he]

/-- Witness for C9 at `now = 35`, `max_age = 10`: entry A (modified at 10, age 25)
is deleted, entry C (modified at 30, age 5) is retained. -/
theorem ageSweep_age_eviction_witness :
    (exA ∈ (ageSweep 35 10 [exA, exC]).2 ↔ 10 < 35 - modTime exA)
    ∧ (exC ∈ (ageSweep 35 10 [exA, exC]).1 ↔ ¬ 10 < 35 - modTime exC)
    ∧ (ageSweep 35 10 [exA, exC]).2 = [exA]
    ∧ (ageSweep 35 10 [exA, exC]).1 = [exC] :=
  ⟨(ageSweep_age_eviction 35 10 [exA, exC] exA (by decide) (by decide)).1,
    (ageSweep_age_eviction 35 10 [exA, exC] exC (by decide) (by decide)).2,
    by decide, by decide⟩

/-- **C10** (confirmed): a top-level entry that is neither a regular file nor a
directory (for example a broken symlink) is never deleted by either phase of a
sweep — both phases fall through their `is_dir` / `is_file` arms for it. -/
theorem cleanup_endpoint_never_deletes_other (maxAge maxSize : Option Nat) (now : Nat)
    (entries : List Entry) (e : Entry) (h : e.kind = FileKind.other) :
    e ∉ (cleanup_endpoint maxAge maxSize now entries).deleted := by
  have hf : is_dir_or_file e = false := (is_dir_or_file_eq_false_iff e).mpr h
  have hA : ∀ m l, e ∉ (ageSweep now m l).2 := by
    intro m l hmem
    rw [ageSweep_eq_filter] at hmem
    have := (List.mem_filter.mp hmem).2
    simp [ageDeletes, hf] at this
  have hB : ∀ s (l : List Entry), e ∉ (sizeSweep s l).deleted := by
    intro s l hmem
    have := sizeSweepGo_deleted_dir_or_file s _ 0 e hmem
    rw [hf] at this
    exact Bool.false_ne_true this
  intro hmem
  cases maxAge with
  | none =>
    cases maxSize with
    | none => simp [cleanup_endpoint] at hmem
    | some s =>
      simp [cleanup_endpoint] at hmem
      exact hB s entries hmem
  | some m =>
    cases maxSize with
    | none =>
      simp [cleanup_endpoint] at hmem
      exact hA m entries hmem
    | some s =>
      simp [cleanup_endpoint] at hmem
      rcases hmem with hmem | hmem
      · exact hA m entries hmem
      · exact hB s _ hmem

/-- Witness for C10: a broken-symlink-like entry, far older than `max_age = 1` and
far larger than `max_total_size = 0`, survives a sweep at `now = 100`. -/
theorem cleanup_endpoint_never_deletes_other_witness :
    exOther.kind = FileKind.other
    ∧ exOther ∉ (cleanup_endpoint (some 1) (some 0) 100 [exOther]).deleted
    ∧ (cleanup_endpoint (some 1) (some 0) 100 [exOther]).remaining = [exOther] :=
  ⟨by decide,
    cleanup_endpoint_never_deletes_other (some 1) (some 0) 100 [exOther] exOther (by decide),
    by decide⟩

theorem ageSweep_no_delete {now m : Nat} {l : List Entry}
    (h : ∀ e ∈ l, ageDeletes now m e = false) :
    ageSweep now m l = (l, []) := by
  rw [ageSweep_eq_filter]
  refine Prod.ext ?_ ?_
  · exact List.filter_eq_self.mpr fun a ha => by rw [h a ha]; rfl
  · exact List.filter_eq_nil_iff.mpr fun a ha => by rw [h a ha]; exact Bool.false_ne_true

theorem ageSweep_kept_mem {now m : Nat} {l : List Entry} {e : Entry}
    (h : e ∈ (ageSweep now m l).1) : e ∈ l ∧ ageDeletes now m e = false := by
  rw [ageSweep_eq_filter] at h
  have := List.mem_filter.mp h
  exact ⟨this.1, by simpa using this.2⟩

theorem sizeSweep_idem (s : Nat) (l : List Entry) :
    sizeSweep s (sizeSweep s l).kept
      = ⟨(sizeSweep s l).kept, [], (sizeSweep s l).kept⟩ := by
  have hsub : (sizeSweep s l).kept.Sublist (sortNewestFirst l) :=
    sizeSweepGo_kept_sublist s (sortNewestFirst l) 0
  have hsorted : List.Sorted newerRel (sizeSweep s l).kept :=
    List.Pairwise.sublist hsub (sortNewestFirst_sorted l)
  have hsum : sumSizes (sizeSweep s l).kept ≤ s := by
    have := sizeSweepGo_kept_sum s (sortNewestFirst l) 0 (Nat.zero_le s)
    simpa [sizeSweep] using this
  rw [sizeSweep, sortNewestFirst_of_sorted hsorted]
  exact sizeSweepGo_all_kept s _ 0 (by simpa using hsum)

/-- **C8** (confirmed): running a sweep twice in succession with no intervening
changes to the workspace (same entries, same clock reading) deletes the offending
entries exactly once — the second sweep deletes nothing and leaves the workspace
unchanged. -/
theorem cleanup_endpoint_idempotent (maxAge maxSize : Option Nat) (now : Nat)
    (entries : List Entry) :
    cleanup_endpoint maxAge maxSize now
        (cleanup_endpoint maxAge maxSize now entries).remaining
      = ⟨(cleanup_endpoint maxAge maxSize now entries).remaining, []⟩ := by
  cases maxAge with
  | none =>
    cases maxSize with
    | none => rfl
    | some s =>
      simp [cleanup_endpoint, sizeSweep_idem s entries]
  | some m =>
    cases maxSize with
    | none =>
      have h : ∀ e ∈ (ageSweep now m entries).1, ageDeletes now m e = false :=
        fun e he => (ageSweep_kept_mem he).2
      simp [cleanup_endpoint, ageSweep_no_delete h]
    | some s =>
      have hK : ∀ e ∈ (sizeSweep s (ageSweep now m entries).1).kept,
          ageDeletes now m e = false := by
        intro e he
        have he2 : e ∈ sortNewestFirst (ageSweep now m entries).1 :=
          (sizeSweepGo_kept_sublist s _ 0).subset he
        exact (ageSweep_kept_mem (mem_sortNewestFirst.mp he2)).2
      simp [cleanup_endpoint, ageSweep_no_delete hK,
        sizeSweep_idem s (ageSweep now m entries).1]

/-- **C3 counterexample**: with `max_age = 10` at `now = 100`, the workspace holds
two stale regular files; deleting the first fails.  The sweep then aborts with the
error: the second file — although it qualifies for deletion and all OS calls on it
would succeed — is left unvisited and undeleted, contradicting the claim that all
subsequent entries of the same sweep are still visited and processed. -/
theorem ageSweepE_abort_counterexample :
    ageExceeded 100 10 exOldNext.entry = true
    ∧ is_dir_or_file exOldNext.entry = true
    ∧ opFails 100 10 exOldNext = false
    ∧ (ageSweepE 100 10 [exFailDelete, exOldNext]).deleted = []
    ∧ (ageSweepE 100 10 [exFailDelete, exOldNext]).unvisited = [exFailDelete, exOldNext]
    ∧ (ageSweepE 100 10 [exFailDelete, exOldNext]).ok = false := by decide

/-- **C3 amended**: during a sweep, the first failing OS call (metadata read, file
type read, or deletion) aborts the remainder of the sweep: the phase stops with an
error (which the periodic cleanup task merely logs, so it reaches no request path),
the failing entry stays, all later entries are left unvisited, and only the
entries processed before the failure were kept or deleted. -/
theorem ageSweepE_abort_on_first_failure (now maxAge : Nat) (pre : List EntryE)
    (e : EntryE) (suf : List EntryE)
    (hpre : ∀ x ∈ pre, opFails now maxAge x = false)
    (he : opFails now maxAge e = true) :
    (ageSweepE now maxAge (pre ++ e :: suf)).unvisited = e :: suf
    ∧ (ageSweepE now maxAge (pre ++ e :: suf)).ok = false
    ∧ (ageSweepE now maxAge (pre ++ e :: suf)).deleted = (ageSweepE now maxAge pre).deleted
    ∧ (ageSweepE now maxAge (pre ++ e :: suf)).kept = (ageSweepE now maxAge pre).kept := by
  induction pre with
  | nil =>
    simp only [List.nil_append]
    rcases e with ⟨ee, mOk, ftOk, rmOk⟩
    cases mOk <;> cases ftOk <;> cases rmOk <;>
      cases hage : ageExceeded now maxAge ee <;>
        cases hrem : is_dir_or_file ee <;>
          simp_all [ageSweepE, opFails]
  | cons x xs ih =>
    have hx : opFails now maxAge x = false := hpre x (List.mem_cons_self x xs)
    obtain ⟨ihu, iho, ihd, ihk⟩ := ih fun y hy => hpre y (List.mem_cons_of_mem x hy)
    rcases x with ⟨xe, mOk, ftOk, rmOk⟩
    cases mOk <;> cases ftOk <;> cases rmOk <;>
      cases hage : ageExceeded now maxAge xe <;>
        cases hrem : is_dir_or_file xe <;>
          simp_all [ageSweepE, opFails]

/-- Witness for the amended C3: one successfully processed stale file, then the
failing deletion, then one more stale file that is left unvisited. -/
theorem ageSweepE_abort_on_first_failure_witness :
    (ageSweepE 100 10 ([exOldNext] ++ exFailDelete :: [exOldNext])).unvisited
        = exFailDelete :: [exOldNext]
    ∧ (ageSweepE 100 10 ([exOldNext] ++ exFailDelete :: [exOldNext])).ok = false
    ∧ (ageSweepE 100 10 ([exOldNext] ++ exFailDelete :: [exOldNext])).deleted
        = (ageSweepE 100 10 [exOldNext]).deleted
    ∧ (ageSweepE 100 10 ([exOldNext] ++ exFailDelete :: [exOldNext])).kept
        = (ageSweepE 100 10 [exOldNext]).kept :=
  ageSweepE_abort_on_first_failure 100 10 [exOldNext] exFailDelete [exOldNext]
    (by decide) (by decide)

/-- **C4** (confirmed): `process_command` returns `Completed` exactly when the
process was launched and ran to completion — regardless of its exit status —
carrying the real exit code, or the `-1001` sentinel when the OS reports
termination without a code; when the launch fails it returns `Failure` whose
reason is the rendering of the underlying OS error; and a `Failure` arises in no
other way (errors are never surfaced outside that variant). -/
theorem process_command_outcome (cmd_id : Nat) (result : Except IoError Output)
    (return_logs : Bool) (time_taken : Nat) :
    (∀ out, result = Except.ok out →
      (process_command cmd_id result return_logs time_taken).status
        = RunStatusLogs.completed (out.code.getD (-1001)) time_taken
            (if return_logs then some (out.stdout, out.stderr) else none))
    ∧ (∀ e, result = Except.error e →
      (process_command cmd_id result return_logs time_taken).status
        = RunStatusLogs.failure e.message)
    ∧ (∀ reason, (process_command cmd_id result return_logs time_taken).status
          = RunStatusLogs.failure reason →
        ∃ e, result = Except.error e ∧ reason = e.message) := by
  refine ⟨fun out hout => ?_, fun e he => ?_, fun reason hr => ?_⟩
  · rw [hout]; rfl
  · rw [he]; rfl
  · cases result with
    | ok out => simp [process_command] at hr
    | error e => exact ⟨e, rfl, by simpa [process_command] using hr.symm⟩

/-- Witness for C4: a process that exits with code 3, a signal-terminated process
(no exit code, sentinel `-1001`), and a failed launch rendered as its OS error. -/
theorem process_command_outcome_witness :
    (process_command 7 (Except.ok ⟨some 3, [1], [2]⟩) true 5).status
        = RunStatusLogs.completed 3 5 (some ([1], [2]))
    ∧ (process_command 7 (Except.ok ⟨none, [], []⟩) false 5).status
        = RunStatusLogs.completed (-1001) 5 none
    ∧ (process_command 7 (Except.error ⟨"No such file or directory (os error 2)"⟩) true 5).status
        = RunStatusLogs.failure "No such file or directory (os error 2)" :=
  ⟨(process_command_outcome 7 (Except.ok ⟨some 3, [1], [2]⟩) true 5).1 _ rfl,
    (process_command_outcome 7 (Except.ok ⟨none, [], []⟩) false 5).1 _ rfl,
    (process_command_outcome 7 (Except.error ⟨"No such file or directory (os error 2)"⟩)
      true 5).2.1 _ rfl⟩

/-- **C5** (confirmed against the spec-modelled runner `process`): in every
`Completed` outcome, `stdout` is present iff `return_stdout` was set and `stderr`
is present iff `return_stderr` was set, each flag independently of the other and
of what the process wrote; when present they carry the raw captured bytes. -/
theorem process_capture_flags (id time_taken : Nat) (result : Except IoError Output)
    (return_stdout return_stderr : Bool) (out : Output)
    (hok : result = Except.ok out) :
    ((process id result return_stdout return_stderr time_taken).status.stdoutField).isSome
        = return_stdout
    ∧ ((process id result return_stdout return_stderr time_taken).status.stderrField).isSome
        = return_stderr
    ∧ (return_stdout = true →
        (process id result return_stdout return_stderr time_taken).status.stdoutField
          = some out.stdout)
    ∧ (return_stderr = true →
        (process id result return_stdout return_stderr time_taken).status.stderrField
          = some out.stderr) := by
  subst hok
  cases return_stdout <;> cases return_stderr <;>
    simp [process, RunStatus.stdoutField, RunStatus.stderrField]

/-- Witness for C5, at a process that wrote to both streams but with only
`return_stderr` set: `stdout` is absent, `stderr` is present. -/
theorem process_capture_flags_witness :
    ((process 9 (Except.ok ⟨some 0, [65], [66]⟩) false true 4).status.stdoutField).isSome = false
    ∧ ((process 9 (Except.ok ⟨some 0, [65], [66]⟩) false true 4).status.stderrField).isSome = true
    ∧ (process 9 (Except.ok ⟨some 0, [65], [66]⟩) false true 4).status.stderrField = some [66] :=
  ⟨(process_capture_flags 9 4 _ false true ⟨some 0, [65], [66]⟩ rfl).1,
    (process_capture_flags 9 4 _ false true ⟨some 0, [65], [66]⟩ rfl).2.1,
    (process_capture_flags 9 4 _ false true ⟨some 0, [65], [66]⟩ rfl).2.2.2 rfl⟩

/-- **C6** (confirmed): `run_script` writes the script body verbatim to the
computed script path before any execution is attempted — a process can be spawned
only after a successful write — and on write failure it answers
`Failure("Failed to write script data")` without any spawn. -/
theorem run_script_writes_body_before_execution (tempDir : String) (config : Config)
    (query : RunScriptQuery) (script : String) (id : Nat) (env : ScriptEnv) :
    (env.writeOk = true →
      (run_script tempDir config query script id env).written
        = [(script_path tempDir id query.interpreter, script)])
    ∧ (env.writeOk = false →
      (run_script tempDir config query script id env).written = []
      ∧ (run_script tempDir config query script id env).spawned = none
      ∧ (run_script tempDir config query script id env).response.status
          = RunStatus.failure "Failed to write script data")
    ∧ ((run_script tempDir config query script id env).spawned ≠ none →
        env.writeOk = true) := by
  refine ⟨fun hw => ?_, fun hw => ?_, fun hs => ?_⟩
  · rcases query with ⟨i, rso, rse⟩
    cases i <;>
      simp [run_script, hw] <;>
        first
          | (cases config.bash_path <;> simp [run_script, hw])
          | (cases config.powershell_path <;> simp [run_script, hw])
          | (cases henv : env.isWindows <;> simp [run_script, hw, henv])
  · simp [run_script, hw]
  · by_cases hw : env.writeOk = true
    · exact hw
    · have hw' : env.writeOk = false := by
        revert hw; cases env.writeOk <;> simp
      exact absurd (by simp [run_script, hw']) hs

/-- Witness for C6: a bash script body is written verbatim to the computed path on
the success side, and a failing write yields the typed failure and no spawn. -/
theorem run_script_writes_body_before_execution_witness :
    (run_script "/tmp" ⟨some "/bin/bash", none⟩ ⟨ScriptInterpreter.bash, false, false⟩
          "echo hi" 42 ⟨true, true, Except.ok ⟨some 0, [], []⟩, 1⟩).written
        = [(script_path "/tmp" 42 ScriptInterpreter.bash, "echo hi")]
    ∧ ((run_script "/tmp" ⟨some "/bin/bash", none⟩ ⟨ScriptInterpreter.bash, false, false⟩
          "echo hi" 42 ⟨true, false, Except.ok ⟨some 0, [], []⟩, 1⟩).written = []
      ∧ (run_script "/tmp" ⟨some "/bin/bash", none⟩ ⟨ScriptInterpreter.bash, false, false⟩
          "echo hi" 42 ⟨true, false, Except.ok ⟨some 0, [], []⟩, 1⟩).spawned = none
      ∧ (run_script "/tmp" ⟨some "/bin/bash", none⟩ ⟨ScriptInterpreter.bash, false, false⟩
          "echo hi" 42 ⟨true, false, Except.ok ⟨some 0, [], []⟩, 1⟩).response.status
        = RunStatus.failure "Failed to write script data") :=
  ⟨(run_script_writes_body_before_execution "/tmp" ⟨some "/bin/bash", none⟩
      ⟨ScriptInterpreter.bash, false, false⟩ "echo hi" 42
      ⟨true, true, Except.ok ⟨some 0, [], []⟩, 1⟩).1 rfl,
    (run_script_writes_body_before_execution "/tmp" ⟨some "/bin/bash", none⟩
      ⟨ScriptInterpreter.bash, false, false⟩ "echo hi" 42
      ⟨true, false, Except.ok ⟨some 0, [], []⟩, 1⟩).2.1 rfl⟩

/-- **C7 counterexample**: the claim promises the reason
`"<Interpreter> not supported"` for every unsupported dispatch, but for `Cmd` on a
non-Windows platform `run_script` answers `"Cmd not supported on unix"`, which is
not the string `"Cmd not supported"`. -/
theorem run_script_cmd_unix_reason_counterexample :
    (run_script "/tmp" ⟨none, none⟩ ⟨ScriptInterpreter.cmd, false, false⟩ "echo hi" 1
        ⟨false, true, Except.ok ⟨some 0, [], []⟩, 1⟩).response.status
      = RunStatus.failure "Cmd not supported on unix"
    ∧ "Cmd not supported on unix" ≠ "Cmd not supported" := by
  constructor
  · rfl
  · decide

/-- **C7 amended**: a `ScriptRequest` whose interpreter cannot be dispatched spawns
no process and performs no filesystem write beyond the already-written script
file; the failure reason is `"Bash not supported"` / `"Powershell not supported"`
when the respective binary is not configured, and `"Cmd not supported on unix"`
for `Cmd` on a non-Windows platform. -/
theorem run_script_unsupported_interpreter (tempDir : String) (config : Config)
    (query : RunScriptQuery) (script : String) (id : Nat) (env : ScriptEnv)
    (hw : env.writeOk = true) :
    (query.interpreter = ScriptInterpreter.bash → config.bash_path = none →
      (run_script tempDir config query script id env).spawned = none
      ∧ (run_script tempDir config query script id env).written
          = [(script_path tempDir id query.interpreter, script)]
      ∧ (run_script tempDir config query script id env).response.status
          = RunStatus.failure "Bash not supported")
    ∧ (query.interpreter = ScriptInterpreter.powershell → config.powershell_path = none →
      (run_script tempDir config query script id env).spawned = none
      ∧ (run_script tempDir config query script id env).written
          = [(script_path tempDir id query.interpreter, script)]
      ∧ (run_script tempDir config query script id env).response.status
          = RunStatus.failure "Powershell not supported")
    ∧ (query.interpreter = ScriptInterpreter.cmd → env.isWindows = false →
      (run_script tempDir config query script id env).spawned = none
      ∧ (run_script tempDir config query script id env).written
          = [(script_path tempDir id query.interpreter, script)]
      ∧ (run_script tempDir config query script id env).response.status
          = RunStatus.failure "Cmd not supported on unix") := by
  refine ⟨fun hi hb => ?_, fun hi hp => ?_, fun hi hwin => ?_⟩ <;>
    rcases query with ⟨i, rso, rse⟩ <;>
      subst hi <;>
        simp_all [run_script]

/-- Witness for the amended C7: an unconfigured bash dispatch and a `Cmd` dispatch
on unix each fail softly, with only the script file written and no spawn. -/
theorem run_script_unsupported_interpreter_witness :
    ((run_script "/tmp" ⟨none, none⟩ ⟨ScriptInterpreter.bash, false, false⟩ "x" 3
          ⟨false, true, Except.ok ⟨some 0, [], []⟩, 1⟩).spawned = none
      ∧ (run_script "/tmp" ⟨none, none⟩ ⟨ScriptInterpreter.bash, false, false⟩ "x" 3
          ⟨false, true, Except.ok ⟨some 0, [], []⟩, 1⟩).written
        = [(script_path "/tmp" 3 ScriptInterpreter.bash, "x")]
      ∧ (run_script "/tmp" ⟨none, none⟩ ⟨ScriptInterpreter.bash, false, false⟩ "x" 3
          ⟨false, true, Except.ok ⟨some 0, [], []⟩, 1⟩).response.status
        = RunStatus.failure "Bash not supported")
    ∧ ((run_script "/tmp" ⟨none, none⟩ ⟨ScriptInterpreter.cmd, false, false⟩ "x" 3
          ⟨false, true, Except.ok ⟨some 0, [], []⟩, 1⟩).spawned = none
      ∧ (run_script "/tmp" ⟨none, none⟩ ⟨ScriptInterpreter.cmd, false, false⟩ "x" 3
          ⟨false, true, Except.ok ⟨some 0, [], []⟩, 1⟩).written
        = [(script_path "/tmp" 3 ScriptInterpreter.cmd, "x")]
      ∧ (run_script "/tmp" ⟨none, none⟩ ⟨ScriptInterpreter.cmd, false, false⟩ "x" 3
          ⟨false, true, Except.ok ⟨some 0, [], []⟩, 1⟩).response.status
        = RunStatus.failure "Cmd not supported on unix") :=
  ⟨(run_script_unsupported_interpreter "/tmp" ⟨none, none⟩
      ⟨ScriptInterpreter.bash, false, false⟩ "x" 3
      ⟨false, true, Except.ok ⟨some 0, [], []⟩, 1⟩ rfl).1 rfl rfl,
    (run_script_unsupported_interpreter "/tmp" ⟨none, none⟩
      ⟨ScriptInterpreter.cmd, false, false⟩ "x" 3
      ⟨false, true, Except.ok ⟨some 0, [], []⟩, 1⟩ rfl).2.2 rfl rfl⟩

end RustyRunner
